import Mathlib

set_option maxRecDepth 8000

/-- Character strings are modelled as lists of characters.  For the ASCII
data this service handles, Go byte length and character count agree, so
Go len(s) is modelled by list length. -/
abbrev Str := List Char

/-- Go error values of the users domain.  The six sentinel constructors
mirror the package-level error variables of
internal/domains/users/domain/errors.go; `msg` mirrors errors.New with a
plain message (compared by message text, as distinct errors.New values at
distinct call sites are never errors.Is-equal unless identical — here we
identify them by message, which is faithful because every message in this
code base is distinct per call site); `wrap` mirrors fmt.Errorf with a %w
verb: the context text plus a wrapped inner error, and errors.Is unwraps
through it. -/
inductive AppError where
  | userNotFound
  | emailAlreadyExists
  | invalidEmail
  | invalidPassword
  | userInactive
  | unauthorized
  | msg (s : Str)
  | wrap (ctx : Str) (inner : AppError)
  deriving DecidableEq, Repr

/-- errors.Is: the error equals the target, or the target is reachable by
unwrapping fmt.Errorf %w wrappers. -/
def errsIs : AppError → AppError → Bool
  | .wrap ctx inner, t => decide (AppError.wrap ctx inner = t) || errsIs inner t
  | e, t => decide (e = t)

/-- The Error() string of an error value; a wrapped error renders as
"context: inner" the way fmt.Errorf does. -/
def errMsg : AppError → Str
  | .userNotFound => "user not found".toList
  | .emailAlreadyExists => "email already exists".toList
  | .invalidEmail => "invalid email format".toList
  | .invalidPassword => "invalid password".toList
  | .userInactive => "user is inactive".toList
  | .unauthorized => "unauthorized".toList
  | .msg s => s
  | .wrap ctx inner => ctx ++ ": ".toList ++ errMsg inner

/-- UserHandler.handleError of handler/handler.go: the switch over
errors.Is mapping domain errors to HTTP status codes, with the default
arm returning 500. -/
def handleError (e : AppError) : Nat :=
  if errsIs e .userNotFound then 404
  else if errsIs e .emailAlreadyExists then 409
  else if errsIs e .invalidEmail then 400
  else if errsIs e .invalidPassword then 401
  else if errsIs e .userInactive then 403
  else 500

/-- Character class of the local part of domain/user.go's emailRegex:
[a-zA-Z0-9._%+-]. -/
def isLocalChar (c : Char) : Bool :=
  c.isAlpha || c.isDigit || c == '.' || c == '_' || c == '%' || c == '+' || c == '-'

/-- Character class of the domain stem of emailRegex: [a-zA-Z0-9.-]. -/
def isDomainChar (c : Char) : Bool :=
  c.isAlpha || c.isDigit || c == '.' || c == '-'

/-- The anchored regular expression of domain/user.go,
`[a-zA-Z0-9._%+\-]+ @ [a-zA-Z0-9.\-]+ \. [a-zA-Z]{2,}` (anchored with ^$),
as an executable matcher.  Neither character class contains the at sign,
so a match forces exactly one at sign, splitting the string into local
part and domain; the TLD consists of letters only, hence contains no dot,
so the dot of the `\.` is necessarily the LAST dot of the domain: the
regex matches exactly when the text before the last dot of the domain is
a nonempty run of domain characters and the text after it is two or more
letters. -/
def matchEmail (cs : Str) : Bool :=
  match cs.splitOn '@' with
  | [lp, dom] =>
      !lp.isEmpty && lp.all isLocalChar &&
      (let parts := dom.splitOn '.'
       let tld := parts.getLastD []
       let stem := List.intercalate ['.'] parts.dropLast
       decide (2 ≤ parts.length) && !stem.isEmpty && stem.all isDomainChar &&
       decide (2 ≤ tld.length) && tld.all Char.isAlpha)
  | _ => false

/-- Go's unicode.IsSpace: true exactly on the code points of Unicode's
White_Space property — U+0009..U+000D (tab, newline, vertical tab, form
feed, carriage return), space, U+0085 (NEL), U+00A0 (NBSP), U+1680,
U+2000..U+200A, U+2028, U+2029, U+202F, U+205F and U+3000. -/
def goIsSpace (c : Char) : Bool :=
  c.toNat = 9 || c.toNat = 10 || c.toNat = 11 || c.toNat = 12 || c.toNat = 13 ||
  c.toNat = 32 || c.toNat = 133 || c.toNat = 160 || c.toNat = 0x1680 ||
  (0x2000 ≤ c.toNat && c.toNat ≤ 0x200A) || c.toNat = 0x2028 || c.toNat = 0x2029 ||
  c.toNat = 0x202F || c.toNat = 0x205F || c.toNat = 0x3000

/-- strings.TrimSpace: drop the characters of unicode.IsSpace from both
ends. -/
def trimList (cs : Str) : Str :=
  ((cs.dropWhile goIsSpace).reverse.dropWhile goIsSpace).reverse

/-- The normalization NewEmail applies before validating:
strings.TrimSpace(strings.ToLower(email)). -/
def normalizeEmail (raw : Str) : Str :=
  trimList (raw.map Char.toLower)

/-- domain.NewEmail: normalize to lowercase, trim whitespace, fail with
ErrInvalidEmail when empty or not matching emailRegex, otherwise wrap the
normalized string as the Email value object (modelled by its underlying
value, which is all the value object exposes). -/
def NewEmail (raw : Str) : Except AppError Str :=
  if (normalizeEmail raw).isEmpty then .error .invalidEmail
  else if matchEmail (normalizeEmail raw) then .ok (normalizeEmail raw)
  else .error .invalidEmail

/-- domain.User: the entity fields of domain/user.go.  UUIDs are modelled
as naturals, time.Time instants as naturals. -/
structure User where
  id : Nat
  email : Str
  name : Str
  passwordHash : Str
  isActive : Bool
  createdAt : Nat
  updatedAt : Nat
  deriving DecidableEq, Repr

/-- The users table: a list of rows, in insertion order. -/
abbrev DB := List User

/-- Well-formedness the schema's PRIMARY KEY and UNIQUE constraints keep
invariant: pairwise distinct ids and pairwise distinct emails. -/
def WellFormedDB (db : DB) : Prop :=
  db.Pairwise (fun a b => a.id ≠ b.id ∧ a.email ≠ b.email)

instance (db : DB) : Decidable (WellFormedDB db) := by
  unfold WellFormedDB
  infer_instance

/-- domain.NewUser: factory of domain/user.go.  Fails when name or
password hash is empty; otherwise assigns the fresh id (uuid.New is
modelled by the caller-supplied fresh id) and sets both timestamps to
now, active by default. -/
def NewUser (email : Str) (name passwordHash : Str) (newId now : Nat) :
    Except AppError User :=
  if name.isEmpty then .error (.msg "name cannot be empty".toList)
  else if passwordHash.isEmpty then .error (.msg "password hash cannot be empty".toList)
  else .ok { id := newId, email := email, name := name, passwordHash := passwordHash,
             isActive := true, createdAt := now, updatedAt := now }

/-- UserResponseDTO of application/dto.go: exactly the fields id, email,
name, is_active, created_at, updated_at — no password hash field. -/
structure UserResponseDTO where
  id : Nat
  email : Str
  name : Str
  isActive : Bool
  createdAt : Nat
  updatedAt : Nat
  deriving DecidableEq, Repr

/-- CreateUserDTO of application/dto.go. -/
structure CreateUserDTO where
  email : Str
  name : Str
  password : Str
  deriving DecidableEq, Repr

/-- UpdateUserDTO of application/dto.go. -/
structure UpdateUserDTO where
  name : Str
  email : Str
  deriving DecidableEq, Repr

/-- ChangePasswordDTO of application/dto.go. -/
structure ChangePasswordDTO where
  oldPassword : Str
  newPassword : Str
  deriving DecidableEq, Repr

/-- UserListResponseDTO of application/dto.go.  Total is int64 in Go,
modelled as Int; Limit and Offset are Go ints, modelled as Int. -/
structure UserListResponseDTO where
  users : List UserResponseDTO
  total : Int
  limit : Int
  offset : Int
  hasMore : Bool
  deriving DecidableEq, Repr

/-- Go's int32(v) conversion of a 64-bit value: keep the low 32 bits,
interpreted as two's complement. -/
def int32trunc (n : Int) : Int :=
  (n + 2 ^ 31) % 2 ^ 32 - 2 ^ 31

/-- Go's 64-bit int arithmetic: two's-complement wrap-around of an
integer into the int64 range. -/
def int64wrap (n : Int) : Int :=
  (n + 2 ^ 63) % 2 ^ 64 - 2 ^ 63

namespace UserRepo

/-- UserRepository.Save (persistence, CreateUser SQL: plain INSERT).
The schema of migrations declares id as PRIMARY KEY and email as a GLOBAL
UNIQUE column (no is_active scoping), so the INSERT raises a unique
violation whenever ANY existing row — active or soft-deleted — carries
the same email (or id); isUniqueViolation maps that to
ErrEmailAlreadyExists.  Otherwise the row is appended. -/
def Save (db : DB) (u : User) : Except AppError DB :=
  if db.any (fun r => decide (r.email = u.email) || decide (r.id = u.id)) then
    .error .emailAlreadyExists
  else .ok (db ++ [u])

/-- UserRepository.FindByID (GetUserByID SQL: WHERE id = $1 AND
is_active = true LIMIT 1); pgx.ErrNoRows maps to ErrUserNotFound. -/
def FindByID (db : DB) (id : Nat) : Except AppError User :=
  match db.find? (fun r => decide (r.id = id) && r.isActive) with
  | some u => .ok u
  | none => .error .userNotFound

/-- UserRepository.FindByEmail (GetUserByEmail SQL: WHERE email = $1 AND
is_active = true LIMIT 1); pgx.ErrNoRows maps to ErrUserNotFound. -/
def FindByEmail (db : DB) (email : Str) : Except AppError User :=
  match db.find? (fun r => decide (r.email = email) && r.isActive) with
  | some u => .ok u
  | none => .error .userNotFound

/-- UserRepository.Update (UpdateUser SQL: UPDATE ... WHERE id = $1
RETURNING *, a :one query).  No matching row yields pgx.ErrNoRows mapped
to ErrUserNotFound; a unique violation against another row's email maps
to ErrEmailAlreadyExists; otherwise every field but created_at of the
matching row is replaced (the WHERE clause does not test is_active). -/
def Update (db : DB) (u : User) : Except AppError DB :=
  if db.any (fun r => decide (r.id = u.id)) then
    if db.any (fun r => decide (r.id ≠ u.id) && decide (r.email = u.email)) then
      .error .emailAlreadyExists
    else .ok (db.map (fun r => if r.id = u.id then { u with createdAt := r.createdAt } else r))
  else .error .userNotFound

/-- UserRepository.Delete (DeleteUser SQL: UPDATE users SET
is_active = false, updated_at = $2 WHERE id = $1, a :exec statement).
An :exec runs through Exec, which reports no error when zero rows match
— pgx.ErrNoRows arises only from :one row scans — so the
errors.Is(err, pgx.ErrNoRows) arm of repository Delete is unreachable
and the operation succeeds regardless of whether a row matched. -/
def Delete (db : DB) (id : Nat) (now : Nat) : Except AppError DB :=
  .ok (db.map (fun r =>
    if r.id = id then { r with isActive := false, updatedAt := now } else r))

/-- Insertion of a row into a list sorted by created_at descending
(models the ORDER BY created_at DESC of the ListUsers SQL). -/
def insertByCreatedDesc (u : User) : DB → DB
  | [] => [u]
  | v :: vs => if v.createdAt ≤ u.createdAt then u :: v :: vs
               else v :: insertByCreatedDesc u vs

/-- Sort by created_at descending. -/
def sortByCreatedDesc : DB → DB
  | [] => []
  | u :: us => insertByCreatedDesc u (sortByCreatedDesc us)

/-- UserRepository.List (ListUsers SQL: WHERE is_active = true ORDER BY
created_at DESC LIMIT $1 OFFSET $2).  The Go repository narrows its int
arguments with int32(limit) and int32(offset) when filling the sqlc
parameters, so a value at or above 2^31 wraps; Postgres rejects a
negative LIMIT or OFFSET, and the repository returns that query error
wrapped with its context.  Otherwise the page is the sorted active rows
from the (narrowed) offset, at most (narrowed) limit long. -/
def List (db : DB) (limit offset : Int) : Except AppError DB :=
  if int32trunc limit < 0 then
    .error (.wrap "failed to list users".toList
      (.msg "ERROR: LIMIT must not be negative (SQLSTATE 2201W)".toList))
  else if int32trunc offset < 0 then
    .error (.wrap "failed to list users".toList
      (.msg "ERROR: OFFSET must not be negative (SQLSTATE 2201X)".toList))
  else
    .ok (((sortByCreatedDesc (db.filter (fun r => r.isActive))).drop
      (int32trunc offset).toNat).take (int32trunc limit).toNat)

/-- UserRepository.Count (CountUsers SQL: COUNT(*) WHERE
is_active = true). -/
def Count (db : DB) : Nat :=
  (db.filter (fun r => r.isActive)).length

end UserRepo

/-- toUserResponseDTO of application/service.go: the mapping from the
domain entity to the response DTO — it copies id, email, name, isActive,
createdAt and updatedAt and nothing else; in particular the password
hash is dropped. -/
def toUserResponseDTO (u : User) : UserResponseDTO :=
  { id := u.id, email := u.email, name := u.name, isActive := u.isActive,
    createdAt := u.createdAt, updatedAt := u.updatedAt }

/-- UserService.validatePassword: at least 8 characters (Go measures
len in bytes, identical for the ASCII passwords in scope), otherwise a
plain errors.New message. -/
def validatePassword (password : Str) : Except AppError Unit :=
  if password.length < 8 then .error (.msg "password must be at least 8 characters".toList)
  else .ok ()

/-- UserService.validateCreateUserInput: email, name and password each
required (plain errors.New messages), then validatePassword. -/
def validateCreateUserInput (dto : CreateUserDTO) : Except AppError Unit :=
  if dto.email.isEmpty then .error (.msg "email is required".toList)
  else if dto.name.isEmpty then .error (.msg "name is required".toList)
  else if dto.password.isEmpty then .error (.msg "password is required".toList)
  else validatePassword dto.password

namespace UserService

/-- UserService.CreateUser: validate input, construct the Email value
object, pre-check FindByEmail (an ErrUserNotFound from the lookup is
ignored, any found user yields ErrEmailAlreadyExists), hash the
password (bcrypt is modelled by the abstract hashFn; uuid.New and
time.Now by the caller-supplied newId and now), construct the entity via
domain.NewUser (its error wrapped with context), and persist via
repository Save (its error wrapped with context).  Returns the response
DTO together with the resulting store state; on error the store is
untouched. -/
def CreateUser (hashFn : Str → Str) (db : DB) (dto : CreateUserDTO)
    (newId now : Nat) : Except AppError UserResponseDTO × DB :=
  match validateCreateUserInput dto with
  | .error e => (.error e, db)
  | .ok _ =>
    match NewEmail dto.email with
    | .error e => (.error e, db)
    | .ok email =>
      match UserRepo.FindByEmail db email with
      | .ok _ => (.error .emailAlreadyExists, db)
      | .error findErr =>
        if !errsIs findErr .userNotFound then
          (.error (.wrap "failed to check email existence".toList findErr), db)
        else
          let passwordHash := hashFn dto.password
          match NewUser email dto.name passwordHash newId now with
          | .error e => (.error (.wrap "failed to create user entity".toList e), db)
          | .ok user =>
            match UserRepo.Save db user with
            | .error e => (.error (.wrap "failed to save user".toList e), db)
            | .ok db2 => (.ok (toUserResponseDTO user), db2)

/-- UserService.GetUser: delegate to FindByID, map to the response DTO. -/
def GetUser (db : DB) (id : Nat) : Except AppError UserResponseDTO :=
  match UserRepo.FindByID db id with
  | .error e => .error e
  | .ok user => .ok (toUserResponseDTO user)

/-- UserService.UpdateUser: fetch by id (propagating ErrUserNotFound),
reject an empty name (plain errors.New), construct the new Email value
object, and only when the new email differs from the current one check
FindByEmail for a conflicting user with a different id (failing with
ErrEmailAlreadyExists); then entity UpdateProfile (replace name and
email, refresh updatedAt) and repository Update (error wrapped with
context). -/
def UpdateUser (db : DB) (id : Nat) (dto : UpdateUserDTO) (now : Nat) :
    Except AppError UserResponseDTO × DB :=
  match UserRepo.FindByID db id with
  | .error e => (.error e, db)
  | .ok user =>
    if dto.name.isEmpty then (.error (.msg "name cannot be empty".toList), db)
    else
      match NewEmail dto.email with
      | .error e => (.error e, db)
      | .ok newEmail =>
        let conflict : Option AppError :=
          if newEmail ≠ user.email then
            match UserRepo.FindByEmail db newEmail with
            | .ok existing => if existing.id ≠ user.id then some .emailAlreadyExists else none
            | .error findErr =>
              if !errsIs findErr .userNotFound then
                some (.wrap "failed to check email existence".toList findErr)
              else none
          else none
        match conflict with
        | some e => (.error e, db)
        | none =>
          let user2 := { user with name := dto.name, email := newEmail, updatedAt := now }
          match UserRepo.Update db user2 with
          | .error e => (.error (.wrap "failed to update user".toList e), db)
          | .ok db2 => (.ok (toUserResponseDTO user2), db2)

/-- UserService.DeleteUser: delegate to repository Delete (soft delete). -/
def DeleteUser (db : DB) (id : Nat) (now : Nat) : Except AppError Unit × DB :=
  match UserRepo.Delete db id now with
  | .error e => (.error e, db)
  | .ok db2 => (.ok (), db2)

/-- UserService.ActivateUser: fetch via FindByID (which returns only
active users), entity Activate (set isActive, refresh updatedAt),
persist via Update (error wrapped with context). -/
def ActivateUser (db : DB) (id : Nat) (now : Nat) :
    Except AppError UserResponseDTO × DB :=
  match UserRepo.FindByID db id with
  | .error e => (.error e, db)
  | .ok user =>
    let user2 := { user with isActive := true, updatedAt := now }
    match UserRepo.Update db user2 with
    | .error e => (.error (.wrap "failed to activate user".toList e), db)
    | .ok db2 => (.ok (toUserResponseDTO user2), db2)

/-- UserService.ChangePassword: fetch via FindByID, verify the old
password against the stored hash (bcrypt.CompareHashAndPassword is
modelled by the abstract verifyFn; a mismatch fails with
ErrInvalidPassword), only then validate the new password's length, hash
it, entity ChangePassword (empty-hash guard, refresh updatedAt), and
persist via Update (error wrapped with context). -/
def ChangePassword (hashFn : Str → Str) (verifyFn : Str → Str → Bool)
    (db : DB) (id : Nat) (dto : ChangePasswordDTO) (now : Nat) :
    Except AppError Unit × DB :=
  match UserRepo.FindByID db id with
  | .error e => (.error e, db)
  | .ok user =>
    if !verifyFn user.passwordHash dto.oldPassword then (.error .invalidPassword, db)
    else
      match validatePassword dto.newPassword with
      | .error e => (.error e, db)
      | .ok _ =>
        let newPasswordHash := hashFn dto.newPassword
        if newPasswordHash.isEmpty then
          (.error (.msg "password hash cannot be empty".toList), db)
        else
          let user2 := { user with passwordHash := newPasswordHash, updatedAt := now }
          match UserRepo.Update db user2 with
          | .error e => (.error (.wrap "failed to update password".toList e), db)
          | .ok db2 => (.ok (), db2)

/-- The two sequential limit clamps at the top of ListUsers (the Go
code reassigns its limit variable twice): limit becomes 10 when at most
0, and is then capped at 100. -/
def effLimit (limit : Int) : Int :=
  if (if limit ≤ 0 then 10 else limit) > 100 then 100
  else if limit ≤ 0 then 10 else limit

/-- The offset clamp of ListUsers: negative offsets become 0. -/
def effOffset (offset : Int) : Int :=
  if offset < 0 then 0 else offset

/-- UserService.ListUsers: clamp limit and offset by the three
sequential ifs of service.go, fetch the page from the repository
(propagating its error wrapped with context) and the active count, and
report hasMore as int64(offset+limit) < total on the clamped values —
the Go addition is 64-bit and wraps, which int64wrap makes explicit. -/
def ListUsers (db : DB) (limit offset : Int) :
    Except AppError UserListResponseDTO :=
  match UserRepo.List db (effLimit limit) (effOffset offset) with
  | .error e => .error (.wrap "failed to list users".toList e)
  | .ok users =>
    .ok { users := users.map toUserResponseDTO,
          total := (UserRepo.Count db : Int),
          limit := effLimit limit, offset := effOffset offset,
          hasMore := decide (int64wrap (effOffset offset + effLimit limit) <
            (UserRepo.Count db : Int)) }

end UserService

deriving instance DecidableEq for Except

/-- The outcome of txManager.WithTransaction together with what happened
to the transaction. -/
structure TxResult where
  result : Except AppError Unit
  committed : Bool
  rolledBack : Bool
  deriving DecidableEq, Repr

/-- txManager.WithTransaction of platform/database/transaction.go,
with the outcomes of the Begin, fn, Rollback and Commit calls supplied
as parameters (they are I/O against the store).  Control flow of the
source: a Begin failure is wrapped and returned; when fn fails, Rollback
runs — if Rollback itself fails the returned error is
fmt.Errorf("failed to rollback transaction: %w (original error: %v)",
rbErr, err), which wraps ONLY the rollback error and renders the
original error merely as text; if Rollback succeeds the original fn
error is returned unchanged; when fn succeeds, Commit runs and a Commit
failure is wrapped.  (The panic-recover path re-panics and is outside
this model of error returns.) -/
def WithTransaction (beginRes : Except AppError Unit) (fnRes : Except AppError Unit)
    (rollbackRes : Except AppError Unit) (commitRes : Except AppError Unit) : TxResult :=
  match beginRes with
  | .error e =>
      { result := .error (.wrap "failed to begin transaction".toList e),
        committed := false, rolledBack := false }
  | .ok _ =>
    match fnRes with
    | .error e =>
      match rollbackRes with
      | .error rbErr =>
          { result := .error (.wrap
              ("failed to rollback transaction (original error: ".toList
                ++ errMsg e ++ ")".toList) rbErr),
            committed := false, rolledBack := false }
      | .ok _ => { result := .error e, committed := false, rolledBack := true }
    | .ok _ =>
      match commitRes with
      | .error e =>
          { result := .error (.wrap "failed to commit transaction".toList e),
            committed := false, rolledBack := false }
      | .ok _ => { result := .ok (), committed := true, rolledBack := false }

/-- A one-user table: the active user A with email a@x.com. -/
def exDb : DB :=
  [{ id := 1, email := "a@x.com".toList, name := "A".toList,
     passwordHash := "hashA".toList, isActive := true, createdAt := 0, updatedAt := 0 }]

/-- User A of exDb, as a standalone value. -/
def exUserA : User :=
  { id := 1, email := "a@x.com".toList, name := "A".toList,
    passwordHash := "hashA".toList, isActive := true, createdAt := 0, updatedAt := 0 }

/-- A two-user table: A (a@x.com, created first) and B (b@x.com). -/
def exDb2 : DB :=
  [{ id := 1, email := "a@x.com".toList, name := "A".toList,
     passwordHash := "hashA".toList, isActive := true, createdAt := 0, updatedAt := 0 },
   { id := 2, email := "b@x.com".toList, name := "B".toList,
     passwordHash := "hashB".toList, isActive := true, createdAt := 1, updatedAt := 1 }]

/-- C2: repository Delete evaluated where no row matches the id: the
DeleteUser SQL is an :exec UPDATE, Exec reports no error for zero
matched rows, so Delete (hence service DeleteUser and the DELETE
endpoint) SUCCEEDS and leaves the table unchanged instead of failing
with UserNotFound — deleting id 99 from the one-user table (only id 1)
and from the empty table both return ok.  The claim's second half does
hold: when a row matches, its active flag is set to false. -/
theorem C2_delete_absent_id_succeeds :
    UserService.DeleteUser exDb 99 7 = (.ok (), exDb) ∧
    UserRepo.Delete ([] : DB) 1 0 = .ok ([] : DB) ∧
    (UserService.DeleteUser exDb 1 7).2 =
      [{ id := 1, email := "a@x.com".toList, name := "A".toList,
         passwordHash := "hashA".toList, isActive := false, createdAt := 0,
         updatedAt := 7 }] := by
  decide

/-- C4 counterexample: when fn fails AND the rollback also fails,
WithTransaction does not return fn's original error — it returns the
rollback-failure wrapper instead, so the claim as stated (original error
rethrown "including when the rollback step itself fails") is false. -/
theorem C4_counterexample :
    (WithTransaction (.ok ()) (.error (.msg "fn failed".toList))
        (.error (.msg "rb failed".toList)) (.ok ())).result ≠
      .error (.msg "fn failed".toList) := by
  decide

/-- C4 (amended): WithTransaction commits and returns success when fn
succeeds (and the commit itself succeeds); when fn fails and the
rollback succeeds it rolls back and returns fn's original error
unchanged; but when the rollback itself fails it returns a NEW error
wrapping the rollback failure, carrying the original error only as
rendered text. -/
theorem C4_with_transaction_semantics (b fn rb c : Except AppError Unit) :
    (b = .ok () → fn = .ok () → c = .ok () →
      WithTransaction b fn rb c =
        { result := .ok (), committed := true, rolledBack := false }) ∧
    (∀ e, b = .ok () → fn = .error e → rb = .ok () →
      WithTransaction b fn rb c =
        { result := .error e, committed := false, rolledBack := true }) ∧
    (∀ e rbErr, b = .ok () → fn = .error e → rb = .error rbErr →
      (WithTransaction b fn rb c).result =
        .error (.wrap ("failed to rollback transaction (original error: ".toList
          ++ errMsg e ++ ")".toList) rbErr)) := by
  refine ⟨fun hb hf hc => ?_, fun e hb hf hr => ?_, fun e rbErr hb hf hr => ?_⟩ <;>
    subst hb <;> subst hf <;> first
      | (subst hc; rfl)
      | (subst hr; rfl)

/-- C4 witness: the amended theorem applied at concrete outcomes for
the commit path and the successful-rollback path. -/
theorem C4_witness :
    WithTransaction (.ok ()) (.ok ()) (.ok ()) (.ok ()) =
      { result := .ok (), committed := true, rolledBack := false } ∧
    WithTransaction (.ok ()) (.error .userNotFound) (.ok ()) (.ok ()) =
      { result := .error .userNotFound, committed := false, rolledBack := true } :=
  ⟨(C4_with_transaction_semantics (.ok ()) (.ok ()) (.ok ()) (.ok ())).1 rfl rfl rfl,
   (C4_with_transaction_semantics (.ok ()) (.error .userNotFound) (.ok ()) (.ok ())).2.1
     .userNotFound rfl rfl rfl⟩

/-- int32trunc is the identity on [0, 2^31). -/
theorem int32trunc_of_range (n : Int) (h0 : 0 ≤ n) (h1 : n < 2 ^ 31) :
    int32trunc n = n := by
  unfold int32trunc
  omega

/-- int64wrap is the identity on the int64 range. -/
theorem int64wrap_of_range (n : Int) (h0 : -(2 ^ 63) ≤ n) (h1 : n < 2 ^ 63) :
    int64wrap n = n := by
  unfold int64wrap
  omega

/-- The limit clamp chain as a single conditional. -/
theorem effLimit_eq (limit : Int) :
    UserService.effLimit limit =
      (if limit ≤ 0 then 10 else if limit > 100 then 100 else limit) := by
  unfold UserService.effLimit
  split_ifs <;> omega

/-- The clamped limit lies in [1, 100]. -/
theorem effLimit_bounds (limit : Int) :
    1 ≤ UserService.effLimit limit ∧ UserService.effLimit limit ≤ 100 := by
  unfold UserService.effLimit
  split_ifs <;> omega

/-- The offset clamp is max with 0. -/
theorem effOffset_eq (offset : Int) : UserService.effOffset offset = max offset 0 := by
  unfold UserService.effOffset
  rw [max_def]
  split_ifs <;> omega

/-- C5 counterexample: at limit 10 and offset 2^31 — both representable
Go ints — ListUsers does not return the claimed response at all: the
repository narrows the offset with int32(), 2^31 wraps to a negative
number, Postgres rejects the negative OFFSET, and the service returns
the wrapped query error. -/
theorem C5_counterexample :
    UserService.ListUsers ([] : DB) 10 (2 ^ 31) =
      .error (.wrap "failed to list users".toList
        (.wrap "failed to list users".toList
          (.msg "ERROR: OFFSET must not be negative (SQLSTATE 2201X)".toList))) := by
  decide

/-- C5 (amended): for every limit and every offset whose effective
value stays below 2^31 (so the int32 narrowing sent to the database is
faithful and the int64 addition cannot wrap), ListUsers succeeds and
reports effective limit 10 when limit is at most 0, 100 when limit
exceeds 100, the limit itself otherwise; effective offset
max(offset, 0); total equal to the repository's active-user count; and
hasMore exactly when effective offset plus effective limit is below
total.  When the effective offset's int32 narrowing is negative (such as
offset = 2^31), the database rejects the query and ListUsers returns an
error instead of a response. -/
theorem C5_list_users_clamping (db : DB) (limit offset : Int) :
    (offset < 2 ^ 31 →
      ∃ resp, UserService.ListUsers db limit offset = .ok resp ∧
        resp.limit = (if limit ≤ 0 then 10 else if limit > 100 then 100 else limit) ∧
        resp.offset = max offset 0 ∧
        resp.total = (UserRepo.Count db : Int) ∧
        (resp.hasMore = true ↔
          max offset 0 + (if limit ≤ 0 then 10 else if limit > 100 then 100 else limit) <
            (UserRepo.Count db : Int))) ∧
    (0 ≤ offset → int32trunc offset < 0 →
      UserService.ListUsers db limit offset =
        .error (.wrap "failed to list users".toList
          (.wrap "failed to list users".toList
            (.msg "ERROR: OFFSET must not be negative (SQLSTATE 2201X)".toList)))) := by
  obtain ⟨hl1, hl2⟩ := effLimit_bounds limit
  have htL : int32trunc (UserService.effLimit limit) = UserService.effLimit limit :=
    int32trunc_of_range _ (by omega) (by omega)
  constructor
  · intro hoff
    have hO : 0 ≤ UserService.effOffset offset ∧
        UserService.effOffset offset < 2 ^ 31 := by
      unfold UserService.effOffset
      split_ifs <;> omega
    have htO : int32trunc (UserService.effOffset offset) =
        UserService.effOffset offset := int32trunc_of_range _ hO.1 hO.2
    have hlist : UserRepo.List db (UserService.effLimit limit)
        (UserService.effOffset offset) =
        .ok (((UserRepo.sortByCreatedDesc (db.filter (fun r => r.isActive))).drop
          (UserService.effOffset offset).toNat).take
          (UserService.effLimit limit).toNat) := by
      unfold UserRepo.List
      rw [htL, htO, if_neg (by omega), if_neg (by omega)]
    have hw : int64wrap (UserService.effOffset offset + UserService.effLimit limit) =
        UserService.effOffset offset + UserService.effLimit limit :=
      int64wrap_of_range _ (by omega) (by omega)
    unfold UserService.ListUsers
    rw [hlist]
    refine ⟨_, rfl, effLimit_eq limit, effOffset_eq offset, rfl, ?_⟩
    show decide (int64wrap (UserService.effOffset offset + UserService.effLimit limit) <
        (UserRepo.Count db : Int)) = true ↔ _
    rw [hw, decide_eq_true_eq, effOffset_eq, effLimit_eq]
  · intro h0 htneg
    have hOeq : UserService.effOffset offset = offset := by
      unfold UserService.effOffset
      rw [if_neg (by omega)]
    have herr : UserRepo.List db (UserService.effLimit limit)
        (UserService.effOffset offset) =
        .error (.wrap "failed to list users".toList
          (.msg "ERROR: OFFSET must not be negative (SQLSTATE 2201X)".toList)) := by
      unfold UserRepo.List
      rw [htL, if_neg (by omega), hOeq, if_pos htneg]
    unfold UserService.ListUsers
    rw [herr]

/-- C5 witness: the amended theorem applied to the two-user table — the
success part at limit 0, offset -5 (clamped to 10 and 0), and the
error part at offset 2^31. -/
theorem C5_witness :
    (∃ resp, UserService.ListUsers exDb2 0 (-5) = .ok resp ∧
        resp.limit = (if (0 : Int) ≤ 0 then 10 else if (0 : Int) > 100 then 100 else 0) ∧
        resp.offset = max (-5) 0 ∧
        resp.total = (UserRepo.Count exDb2 : Int) ∧
        (resp.hasMore = true ↔
          max (-5) 0 + (if (0 : Int) ≤ 0 then 10 else if (0 : Int) > 100 then 100 else 0) <
            (UserRepo.Count exDb2 : Int))) ∧
    UserService.ListUsers exDb2 10 (2 ^ 31) =
      .error (.wrap "failed to list users".toList
        (.wrap "failed to list users".toList
          (.msg "ERROR: OFFSET must not be negative (SQLSTATE 2201X)".toList))) :=
  ⟨(C5_list_users_clamping exDb2 0 (-5)).1 (by decide),
   (C5_list_users_clamping exDb2 10 (2 ^ 31)).2 (by decide) (by decide)⟩

/-- C9: the response mapping drops the password hash — two users that
differ only in their PasswordHash field map to identical response DTOs
(the DTO type carries exactly id, email, name, is_active, created_at,
updated_at) — and consequently GetUser is insensitive to every row's
stored hash. -/
theorem C9_response_never_contains_password_hash :
    (∀ (u : User) (h : Str),
      toUserResponseDTO { u with passwordHash := h } = toUserResponseDTO u) ∧
    (∀ (f : User → Str) (db : DB) (id : Nat),
      UserService.GetUser (db.map (fun r => { r with passwordHash := f r })) id =
        UserService.GetUser db id) := by
  refine ⟨fun u h => rfl, fun f db id => ?_⟩
  unfold UserService.GetUser UserRepo.FindByID
  rw [List.find?_map]
  have hcomp : ((fun r : User => decide (r.id = id) && r.isActive) ∘
      (fun r : User => { r with passwordHash := f r })) =
      (fun r : User => decide (r.id = id) && r.isActive) := rfl
  rw [hcomp]
  cases db.find? (fun r => decide (r.id = id) && r.isActive) <;> rfl

/-- C3 counterexample: a CreateUser input with non-empty well-formed
email and name but a 5-character password fails with the plain
errors.New message of validatePassword, and handleError maps that error
to 500 — not to 400 as the claim states. -/
theorem C3_counterexample :
    (UserService.CreateUser (fun p => 'H' :: p) exDb
      { email := "b@x.com".toList, name := "B".toList, password := "short".toList }
      2 1).1 = .error (.msg "password must be at least 8 characters".toList) ∧
    handleError (.msg "password must be at least 8 characters".toList) = 500 := by
  decide

/-- C3 (amended): a CreateUser input whose password is shorter than 8
characters (all fields non-empty), or whose name is empty, fails with a
plain errors.New error that matches none of the domain sentinels, so
UserHandler.handleError falls through to its default arm and maps it to
the generic 500, not 400. -/
theorem C3_validation_errors_map_to_500 (hashFn : Str → Str) (db : DB)
    (dto : CreateUserDTO) (newId now : Nat) :
    (dto.email ≠ [] → dto.name ≠ [] → dto.password ≠ [] → dto.password.length < 8 →
      (UserService.CreateUser hashFn db dto newId now).1 =
        .error (.msg "password must be at least 8 characters".toList) ∧
      handleError (.msg "password must be at least 8 characters".toList) = 500) ∧
    (dto.email ≠ [] → dto.name = [] →
      (UserService.CreateUser hashFn db dto newId now).1 =
        .error (.msg "name is required".toList) ∧
      handleError (.msg "name is required".toList) = 500) := by
  constructor
  · intro he hn hp hlen
    refine ⟨?_, by decide⟩
    unfold UserService.CreateUser validateCreateUserInput validatePassword
    simp only [List.isEmpty_iff, he, hn, hp, if_false, if_neg]
    simp [he, hn, hp, hlen]
  · intro he hn
    refine ⟨?_, by decide⟩
    unfold UserService.CreateUser validateCreateUserInput
    simp [List.isEmpty_iff, he, hn]

/-- C3 witness: the amended theorem applied to the one-user table with a
5-character password and, for the second part, an empty name. -/
theorem C3_witness :
    ((UserService.CreateUser (fun p => 'H' :: p) exDb
        { email := "c@x.com".toList, name := "C".toList, password := "tiny".toList }
        3 2).1 = .error (.msg "password must be at least 8 characters".toList) ∧
      handleError (.msg "password must be at least 8 characters".toList) = 500) ∧
    ((UserService.CreateUser (fun p => 'H' :: p) exDb
        { email := "c@x.com".toList, name := [], password := "password1".toList }
        3 2).1 = .error (.msg "name is required".toList) ∧
      handleError (.msg "name is required".toList) = 500) :=
  ⟨(C3_validation_errors_map_to_500 (fun p => 'H' :: p) exDb
      { email := "c@x.com".toList, name := "C".toList, password := "tiny".toList }
      3 2).1 (by decide) (by decide) (by decide) (by decide),
   (C3_validation_errors_map_to_500 (fun p => 'H' :: p) exDb
      { email := "c@x.com".toList, name := [], password := "password1".toList }
      3 2).2 (by decide) rfl⟩

/-- C7: for every stored (active) user, ChangePassword with an old
password that does not verify against the stored hash fails with
ErrInvalidPassword and returns the store unchanged — no repository
update, stored hash intact — and since the new password here is
arbitrary (it may even be shorter than 8 characters), the old-password
verification necessarily happens before the new password's length is
validated. -/
theorem C7_wrong_old_password_no_update (hashFn : Str → Str)
    (verifyFn : Str → Str → Bool) (db : DB) (id : Nat)
    (dto : ChangePasswordDTO) (now : Nat) (u : User)
    (hfind : UserRepo.FindByID db id = .ok u)
    (hverify : verifyFn u.passwordHash dto.oldPassword = false) :
    UserService.ChangePassword hashFn verifyFn db id dto now =
      (.error .invalidPassword, db) := by
  unfold UserService.ChangePassword
  rw [hfind]
  simp [hverify]

/-- C7 witness: the theorem applied to the one-user table with plain
equality as the verifier, a wrong old password and a short new one. -/
theorem C7_witness :
    UserService.ChangePassword (fun p => 'H' :: p) (fun h p => h == p) exDb 1
      { oldPassword := "wrong".toList, newPassword := "tiny".toList } 9 =
      (.error .invalidPassword, exDb) :=
  C7_wrong_old_password_no_update (fun p => 'H' :: p) (fun h p => h == p) exDb 1
    { oldPassword := "wrong".toList, newPassword := "tiny".toList } 9 exUserA
    (by decide) (by decide)

/-- In a well-formed table, rows are determined by their id. -/
theorem wellformed_id_inj (db : DB) (hwf : WellFormedDB db) (a b : User)
    (ha : a ∈ db) (hb : b ∈ db) (hid : a.id = b.id) : a = b := by
  by_contra hne
  have hsymm : Symmetric (fun x y : User => x.id ≠ y.id ∧ x.email ≠ y.email) :=
    fun x y h => ⟨Ne.symm h.1, Ne.symm h.2⟩
  have := List.Pairwise.forall hsymm hwf ha hb hne
  exact this.1 hid

/-- In a well-formed table, rows are determined by their email. -/
theorem wellformed_email_inj (db : DB) (hwf : WellFormedDB db) (a b : User)
    (ha : a ∈ db) (hb : b ∈ db) (hemail : a.email = b.email) : a = b := by
  by_contra hne
  have hsymm : Symmetric (fun x y : User => x.id ≠ y.id ∧ x.email ≠ y.email) :=
    fun x y h => ⟨Ne.symm h.1, Ne.symm h.2⟩
  have := List.Pairwise.forall hsymm hwf ha hb hne
  exact this.2 hemail

/-- C10: for every soft-deleted (inactive) user of a well-formed table,
ActivateUser on its id fails with UserNotFound and leaves the store
unchanged, because the service fetches through FindByID whose SQL
filters is_active = true: a deactivated account cannot be reactivated
through the service. -/
theorem C10_activate_soft_deleted_fails (db : DB) (u : User) (now : Nat)
    (hwf : WellFormedDB db) (hu : u ∈ db) (hinactive : u.isActive = false) :
    UserService.ActivateUser db u.id now = (.error .userNotFound, db) := by
  have hnone : db.find? (fun r => decide (r.id = u.id) && r.isActive) = none := by
    rw [List.find?_eq_none]
    intro x hx
    simp only [Bool.and_eq_true, decide_eq_true_eq, not_and]
    intro hid
    have hxu : x = u := wellformed_id_inj db hwf x u hx hu hid
    rw [hxu, hinactive]
    exact Bool.false_ne_true
  have hfind : UserRepo.FindByID db u.id = .error .userNotFound := by
    unfold UserRepo.FindByID
    rw [hnone]
  unfold UserService.ActivateUser
  rw [hfind]

/-- C10 witness: the theorem applied to a one-row table whose single
user is inactive. -/
theorem C10_witness :
    UserService.ActivateUser
      [{ id := 1, email := "a@x.com".toList, name := "A".toList,
         passwordHash := "hashA".toList, isActive := false, createdAt := 0,
         updatedAt := 0 }] 1 9 =
      (.error .userNotFound,
       [{ id := 1, email := "a@x.com".toList, name := "A".toList,
          passwordHash := "hashA".toList, isActive := false, createdAt := 0,
          updatedAt := 0 }]) :=
  C10_activate_soft_deleted_fails
    [{ id := 1, email := "a@x.com".toList, name := "A".toList,
       passwordHash := "hashA".toList, isActive := false, createdAt := 0,
       updatedAt := 0 }]
    { id := 1, email := "a@x.com".toList, name := "A".toList,
      passwordHash := "hashA".toList, isActive := false, createdAt := 0,
      updatedAt := 0 } 9 (by decide) (by decide) (by decide)

/-- FindByID success means the found user is a member, has the id asked
for, and is active. -/
theorem findByID_ok_mem (db : DB) (id : Nat) (u : User)
    (h : UserRepo.FindByID db id = .ok u) :
    u ∈ db ∧ u.id = id ∧ u.isActive = true := by
  unfold UserRepo.FindByID at h
  cases hf : db.find? (fun r => decide (r.id = id) && r.isActive) with
  | none => rw [hf] at h; cases h
  | some w =>
    rw [hf] at h
    injection h with hw
    subst hw
    have hmem := List.mem_of_find?_eq_some hf
    have hp := List.find?_some hf
    simp only [Bool.and_eq_true, decide_eq_true_eq] at hp
    exact ⟨hmem, hp.1, hp.2⟩

/-- C8: for a well-formed table, UpdateUser runs its email-conflict
check only when the new normalized email differs from the user's
current email: updating a user to their own current email succeeds
(no EmailAlreadyExists even though the email is taken — by the user
themself), while updating to a different email owned by another active
user with a different id fails with EmailAlreadyExists. -/
theorem C8_update_email_conflict_only_when_changed (db : DB) (id : Nat)
    (dto : UpdateUserDTO) (now : Nat) (u : User)
    (hwf : WellFormedDB db)
    (hfind : UserRepo.FindByID db id = .ok u)
    (hname : dto.name ≠ []) :
    (NewEmail dto.email = .ok u.email →
       ∃ r, (UserService.UpdateUser db id dto now).1 = .ok r) ∧
    (∀ e v, NewEmail dto.email = .ok e → e ≠ u.email →
       UserRepo.FindByEmail db e = .ok v → v.id ≠ u.id →
       (UserService.UpdateUser db id dto now).1 = .error .emailAlreadyExists) := by
  obtain ⟨hmem, hid, hact⟩ := findByID_ok_mem db id u hfind
  have hnamef : dto.name.isEmpty = false := by
    cases hn : dto.name with
    | nil => exact absurd hn hname
    | cons c cs => rfl
  constructor
  · intro hne
    unfold UserService.UpdateUser
    rw [hfind, hnamef]
    simp only [Bool.false_eq_true, if_false, hne]
    rw [if_neg (show ¬(u.email ≠ u.email) from fun h => h rfl)]
    have hupd : ∃ db2, UserRepo.Update db
        { u with name := dto.name, email := u.email, updatedAt := now } = .ok db2 := by
      unfold UserRepo.Update
      have h1 : (db.any (fun r => decide (r.id =
          ({ u with name := dto.name, email := u.email, updatedAt := now } : User).id))) =
          true := by
        rw [List.any_eq_true]
        exact ⟨u, hmem, by simp⟩
      have h2 : (db.any (fun r => decide (r.id ≠
          ({ u with name := dto.name, email := u.email, updatedAt := now } : User).id) &&
          decide (r.email =
          ({ u with name := dto.name, email := u.email, updatedAt := now } : User).email))) =
          false := by
        rw [Bool.eq_false_iff]
        intro hcontra
        rw [List.any_eq_true] at hcontra
        obtain ⟨r, hrmem, hr⟩ := hcontra
        simp only [Bool.and_eq_true, decide_eq_true_eq] at hr
        exact hr.1 (congrArg User.id (wellformed_email_inj db hwf r u hrmem hmem hr.2))
      rw [h1, h2]
      exact ⟨_, rfl⟩
    obtain ⟨db2, hdb2⟩ := hupd
    rw [hdb2]
    exact ⟨_, rfl⟩
  · intro e v hne hdiff hfindv hvid
    unfold UserService.UpdateUser
    rw [hfind, hnamef]
    simp only [Bool.false_eq_true, if_false, hne]
    rw [if_pos hdiff, hfindv]
    simp [hvid]

/-- C8 witness: on the two-user table, updating A to A's own email
succeeds, and updating A to B's email fails with EmailAlreadyExists —
both by the theorem applied at user A. -/
theorem C8_witness :
    (∃ r, (UserService.UpdateUser exDb2 1
      { name := "New".toList, email := "a@x.com".toList } 9).1 = .ok r) ∧
    (UserService.UpdateUser exDb2 1
      { name := "New".toList, email := "b@x.com".toList } 9).1 =
      .error .emailAlreadyExists :=
  ⟨(C8_update_email_conflict_only_when_changed exDb2 1
      { name := "New".toList, email := "a@x.com".toList } 9 exUserA
      (by decide) (by decide) (by decide)).1 (by decide),
   (C8_update_email_conflict_only_when_changed exDb2 1
      { name := "New".toList, email := "b@x.com".toList } 9 exUserA
      (by decide) (by decide) (by decide)).2 "b@x.com".toList
      { id := 2, email := "b@x.com".toList, name := "B".toList,
        passwordHash := "hashB".toList, isActive := true, createdAt := 1,
        updatedAt := 1 }
      (by decide) (by decide) (by decide) (by decide)⟩

/-- C1 counterexample: on the one-user table, DeleteUser soft-deletes
user A (id 1, a@x.com), yet a subsequent CreateUser reusing a@x.com
FAILS: the service's FindByEmail pre-check sees only active users and
passes, but the INSERT hits the table's global UNIQUE(email) constraint
— the soft-deleted row still holds the email — and Save surfaces
EmailAlreadyExists (wrapped by the service). -/
theorem C1_counterexample :
    (UserService.DeleteUser exDb 1 5).1 = .ok () ∧
    (UserService.CreateUser (fun p => 'H' :: p) ((UserService.DeleteUser exDb 1 5).2)
      { email := "a@x.com".toList, name := "B".toList, password := "password1".toList }
      2 6).1 = .error (.wrap "failed to save user".toList .emailAlreadyExists) := by
  decide

/-- FindByEmail can only fail with UserNotFound. -/
theorem findByEmail_error_eq (db : DB) (email : Str) (e : AppError)
    (h : UserRepo.FindByEmail db email = .error e) : e = .userNotFound := by
  unfold UserRepo.FindByEmail at h
  cases hf : db.find? (fun r => decide (r.email = email) && r.isActive) with
  | none => rw [hf] at h; injection h with h'; exact h'.symm
  | some w => rw [hf] at h; cases h

/-- C1 (amended): after DeleteUser soft-deletes a user, a subsequent
CreateUser reusing that user's email FAILS with an error that
errors.Is-matches EmailAlreadyExists: the service pre-check scopes
uniqueness to active users, but the schema's UNIQUE(email) constraint is
global, so the soft-deleted row still blocks reuse (surfaced either by
the pre-check finding some active holder, or by Save's unique
violation). -/
theorem C1_email_not_reusable_after_soft_delete
    (hashFn : Str → Str) (db : DB) (u : User) (dto : CreateUserDTO)
    (newId now now2 : Nat)
    (hu : u ∈ db) (hmail : NewEmail dto.email = .ok u.email)
    (hvalid : validateCreateUserInput dto = .ok ())
    (hhash : hashFn dto.password ≠ []) :
    ∃ e, (UserService.CreateUser hashFn ((UserService.DeleteUser db u.id now).2)
        dto newId now2).1 = .error e ∧ errsIs e .emailAlreadyExists = true := by
  have hname : dto.name.isEmpty = false := by
    unfold validateCreateUserInput at hvalid
    cases he : dto.email.isEmpty with
    | true => rw [he] at hvalid; cases hvalid
    | false =>
      rw [he] at hvalid
      cases hn : dto.name.isEmpty with
      | true => rw [hn] at hvalid; simp at hvalid
      | false => rfl
  have hhashf : (hashFn dto.password).isEmpty = false := by
    cases hh : hashFn dto.password with
    | nil => exact absurd hh hhash
    | cons c cs => rfl
  have hdel : (UserService.DeleteUser db u.id now).2 =
      db.map (fun r => if r.id = u.id then
        { r with isActive := false, updatedAt := now } else r) := rfl
  set db2 := db.map (fun r => if r.id = u.id then
      { r with isActive := false, updatedAt := now } else r) with hdb2
  have hmem2 : ({ u with isActive := false, updatedAt := now } : User) ∈ db2 := by
    rw [hdb2]
    have hshape : ({ u with isActive := false, updatedAt := now } : User) =
        (fun r => if r.id = u.id then
          { r with isActive := false, updatedAt := now } else r) u := by
      simp
    rw [hshape]
    exact List.mem_map_of_mem _ hu
  unfold UserService.CreateUser
  simp only [hvalid, hmail, hdel]
  cases hfind : UserRepo.FindByEmail db2 u.email with
  | ok w =>
    simp only [hfind]
    exact ⟨.emailAlreadyExists, rfl, by decide⟩
  | error findErr =>
    have hfe : findErr = .userNotFound := findByEmail_error_eq db2 u.email findErr hfind
    subst hfe
    have hnewuser : NewUser u.email dto.name (hashFn dto.password) newId now2 =
        .ok { id := newId, email := u.email, name := dto.name,
              passwordHash := hashFn dto.password, isActive := true,
              createdAt := now2, updatedAt := now2 } := by
      unfold NewUser
      rw [hname, hhashf]
      rfl
    have hsave : UserRepo.Save db2
        { id := newId, email := u.email, name := dto.name,
          passwordHash := hashFn dto.password, isActive := true,
          createdAt := now2, updatedAt := now2 } = .error .emailAlreadyExists := by
      unfold UserRepo.Save
      have hany : db2.any (fun r => decide (r.email =
          ({ id := newId, email := u.email, name := dto.name,
             passwordHash := hashFn dto.password, isActive := true,
             createdAt := now2, updatedAt := now2 } : User).email) ||
          decide (r.id =
          ({ id := newId, email := u.email, name := dto.name,
             passwordHash := hashFn dto.password, isActive := true,
             createdAt := now2, updatedAt := now2 } : User).id)) = true := by
        rw [List.any_eq_true]
        exact ⟨{ u with isActive := false, updatedAt := now }, hmem2, by simp⟩
      rw [hany]
      rfl
    have herr : (!errsIs AppError.userNotFound AppError.userNotFound) = false := rfl
    simp only [hfind, herr, Bool.false_eq_true, if_false, hnewuser, hsave]
    exact ⟨.wrap "failed to save user".toList .emailAlreadyExists, rfl, by decide⟩

/-- C1 witness: the amended theorem applied to the one-user table,
deleting user A and recreating with A's email. -/
theorem C1_witness :
    ∃ e, (UserService.CreateUser (fun p => 'H' :: p)
        ((UserService.DeleteUser exDb 1 5).2)
        { email := "a@x.com".toList, name := "B".toList,
          password := "password1".toList } 2 6).1 = .error e ∧
      errsIs e .emailAlreadyExists = true :=
  C1_email_not_reusable_after_soft_delete (fun p => 'H' :: p) exDb exUserA
    { email := "a@x.com".toList, name := "B".toList, password := "password1".toList }
    2 5 6 (by decide) (by decide) (by decide) (by decide)

/-- Lowercasing leaves whitespace characters unchanged (the lowercase
map only touches the latin letters A..Z, and no White_Space code point
lies in 65..90). -/
theorem toLower_of_whitespace (c : Char) (h : goIsSpace c = true) :
    c.toLower = c := by
  simp only [goIsSpace, Bool.or_eq_true, Bool.and_eq_true, decide_eq_true_eq] at h
  have hout : ¬(c.toNat ≥ 65 ∧ c.toNat ≤ 90) := by omega
  simp [Char.toLower, hout]

/-- trimList ignores an all-whitespace suffix. -/
theorem trimList_append_ws (b c : Str) (hc : ∀ x ∈ c, goIsSpace x = true) :
    trimList (b ++ c) = trimList b := by
  unfold trimList
  rw [List.dropWhile_append]
  cases hb : (b.dropWhile goIsSpace).isEmpty with
  | true =>
    have hcnil : c.dropWhile goIsSpace = [] :=
      List.dropWhile_eq_nil_iff.mpr hc
    have hbnil : b.dropWhile goIsSpace = [] := List.isEmpty_iff.mp hb
    simp [hcnil, hbnil]
  | false =>
    simp only [Bool.false_eq_true, if_false]
    rw [List.reverse_append,
      List.dropWhile_append_of_pos (fun a ha => hc a (List.mem_reverse.mp ha))]

/-- trimList ignores an all-whitespace prefix. -/
theorem trimList_ws_append (a y : Str) (ha : ∀ x ∈ a, goIsSpace x = true) :
    trimList (a ++ y) = trimList y := by
  unfold trimList
  rw [List.dropWhile_append_of_pos ha]

/-- trimList strips whitespace wings down to the trim of the core. -/
theorem trimList_wings (w1 core w2 : Str)
    (h1 : ∀ x ∈ w1, goIsSpace x = true) (h2 : ∀ x ∈ w2, goIsSpace x = true) :
    trimList (w1 ++ core ++ w2) = trimList core := by
  rw [List.append_assoc, trimList_ws_append w1 (core ++ w2) h1,
    trimList_append_ws core w2 h2]

/-- Mapping toLower preserves all-whitespace runs. -/
theorem map_toLower_ws (w : Str) (hw : ∀ x ∈ w, goIsSpace x = true) :
    ∀ x ∈ w.map Char.toLower, goIsSpace x = true := by
  intro x hx
  obtain ⟨y, hy, hxy⟩ := List.mem_map.mp hx
  rw [← hxy, toLower_of_whitespace y (hw y hy)]
  exact hw y hy

/-- normalizeEmail of a string with whitespace wings is the trim of the
lowercased core. -/
theorem normalizeEmail_wings (w1 core w2 : Str)
    (h1 : ∀ x ∈ w1, goIsSpace x = true) (h2 : ∀ x ∈ w2, goIsSpace x = true) :
    normalizeEmail (w1 ++ core ++ w2) = trimList (core.map Char.toLower) := by
  unfold normalizeEmail
  rw [List.map_append, List.map_append]
  exact trimList_wings _ _ _ (map_toLower_ws w1 h1) (map_toLower_ws w2 h2)

/-- Two raw strings differ only in letter case and in leading/trailing
whitespace: each splits as whitespace ++ core ++ whitespace, and the two
cores agree up to letter case. -/
def CaseWsVariant (s t : Str) : Prop :=
  ∃ w1 c1 w2 w3 c2 w4 : Str,
    s = w1 ++ c1 ++ w2 ∧ t = w3 ++ c2 ++ w4 ∧
    (∀ x ∈ w1, goIsSpace x = true) ∧ (∀ x ∈ w2, goIsSpace x = true) ∧
    (∀ x ∈ w3, goIsSpace x = true) ∧ (∀ x ∈ w4, goIsSpace x = true) ∧
    c1.map Char.toLower = c2.map Char.toLower

/-- C6: raw strings differing only in letter case and leading/trailing
whitespace construct the SAME Email result — if one succeeds both
succeed with the same canonical value; a success always yields the
trimmed lower-cased input; and construction fails with InvalidEmail
exactly when the normalized input is empty or does not match the
local@domain.tld pattern. -/
theorem C6_email_normalization (s t : Str) (h : CaseWsVariant s t) :
    NewEmail s = NewEmail t ∧
    (∀ e, NewEmail s = .ok e → e = normalizeEmail s) ∧
    (NewEmail s = .error .invalidEmail ↔
      (normalizeEmail s = [] ∨ matchEmail (normalizeEmail s) = false)) := by
  obtain ⟨w1, c1, w2, w3, c2, w4, hs, ht, h1, h2, h3, h4, hcore⟩ := h
  have hnorm : normalizeEmail s = normalizeEmail t := by
    rw [hs, ht, normalizeEmail_wings w1 c1 w2 h1 h2,
      normalizeEmail_wings w3 c2 w4 h3 h4, hcore]
  refine ⟨?_, ?_, ?_⟩
  · unfold NewEmail
    rw [hnorm]
  · intro e he
    unfold NewEmail at he
    split_ifs at he with hemp hmatch
    cases he
    rfl
  · unfold NewEmail
    constructor
    · intro he
      split_ifs at he with hemp hmatch
      · exact Or.inl (List.isEmpty_iff.mp hemp)
      · exact Or.inr (Bool.eq_false_iff.mpr hmatch)
    · intro hor
      split_ifs with hemp hmatch
      · rfl
      · rcases hor with hnil | hfalse
        · exact absurd (List.isEmpty_iff.mpr hnil) (by simp [hemp])
        · rw [hmatch] at hfalse
          cases hfalse
      · rfl

/-- C6 witness: the theorem applied to "\x0BUser@Example.COM " (a
leading vertical tab — trimmed by unicode.IsSpace — plus mixed case and
a trailing space) against "user@example.com". -/
theorem C6_witness :
    NewEmail "\x0BUser@Example.COM ".toList = NewEmail "user@example.com".toList ∧
    (∀ e, NewEmail "\x0BUser@Example.COM ".toList = .ok e →
      e = normalizeEmail "\x0BUser@Example.COM ".toList) ∧
    (NewEmail "\x0BUser@Example.COM ".toList = .error .invalidEmail ↔
      (normalizeEmail "\x0BUser@Example.COM ".toList = [] ∨
       matchEmail (normalizeEmail "\x0BUser@Example.COM ".toList) = false)) :=
  C6_email_normalization "\x0BUser@Example.COM ".toList "user@example.com".toList
    ⟨"\x0B".toList, "User@Example.COM".toList, " ".toList, [],
     "user@example.com".toList, [],
     by decide, by decide, by decide, by decide, by decide, by decide, by decide⟩
